import Mathlib

/-!
Shallow embedding of the mpris-notifier core: the MPRIS signal decoder
(`src/mpris.rs`), the template formatter (`src/formatter.rs`), the
notification composer (`src/notifier.rs`) and the coalescing signal
handler (`src/signal_handler.rs`).  Time (`std::time::Instant`) is
modelled as a natural number of milliseconds; the D-Bus wire `Variant`
type is modelled as a closed sum of the value shapes the program
consumes.
-/

namespace MprisNotifier

/-- The fixed MPRIS player interface name (`MPRIS_INTERFACE` in `mpris.rs`). -/
def MPRIS_INTERFACE : String := "org.mpris.MediaPlayer2.Player"

/-- `PlayerStatus` from `mpris.rs`. -/
inductive PlayerStatus where
  | Playing
  | Paused
  | Stopped
deriving DecidableEq, Repr

/-- `PlayerMetadata` from `mpris.rs`: all fields optional. -/
structure PlayerMetadata where
  track_id : Option String
  album : Option String
  album_artists : Option (List String)
  art_url : Option String
  artists : Option (List String)
  title : Option String
  track_number : Option Nat
  track_url : Option String
deriving DecidableEq, Repr

/-- `MprisPropertiesChange` from `mpris.rs`. -/
structure MprisPropertiesChange where
  status : Option PlayerStatus
  metadata : Option PlayerMetadata
deriving DecidableEq, Repr

/-- `PlayerStatus::from_str` (`mpris.rs` lines 37-48).  The Rust
`Result<Self, ()>` is modelled as `Option`. -/
def PlayerStatus.from_str (s : String) : Option PlayerStatus :=
  if s = "Playing" then some PlayerStatus.Playing
  else if s = "Paused" then some PlayerStatus.Paused
  else if s = "Stopped" then some PlayerStatus.Stopped
  else none

/-- A D-Bus variant value, one constructor per concrete shape the program
decodes (string, string array, u32, nested string-to-variant map), plus
`other` for every shape it does not consume. -/
inductive DBusValue where
  | str (s : String)
  | strList (xs : List String)
  | uint32 (n : Nat)
  | map (entries : List (String × DBusValue))
  | other

/-- `Variant::get::<String>()`: succeeds only on a string-shaped variant. -/
def DBusValue.getStr : DBusValue → Option String
  | .str s => some s
  | _ => none

/-- `Variant::get::<Vec<String>>()`. -/
def DBusValue.getStrList : DBusValue → Option (List String)
  | .strList xs => some xs
  | _ => none

/-- `Variant::get::<u32>()`. -/
def DBusValue.getU32 : DBusValue → Option Nat
  | .uint32 n => some n
  | _ => none

/-- `Variant::get::<HashMap<String, Variant>>()`. -/
def DBusValue.getMap : DBusValue → Option (List (String × DBusValue))
  | .map m => some m
  | _ => none

/-- First-match lookup in a string-keyed association list (the model of
`HashMap::get`). -/
def mapGet (m : List (String × DBusValue)) (k : String) : Option DBusValue :=
  (m.find? (fun p => p.1 = k)).map Prod.snd

/-- The errors of `DBusError` reachable from the decoder: `Invalid`
carries a message, `Unmarshal` stands for a failed typed read from the
message body. -/
inductive DBusError where
  | Invalid (msg : String)
  | Unmarshal
deriving DecidableEq, Repr

/-- A raw bus message as the handler sees it: the optional sender header
and the sequence of typed body fields (`MarshalledMessage`). -/
structure MarshalledMessage where
  sender : Option String
  body : List DBusValue

/-- `metadata_from_map` (`mpris.rs` lines 76-87): each field is looked up
by its well-known key and decoded; a failed lookup or decode degrades
that one field to `none`. -/
def metadata_from_map (inner : List (String × DBusValue)) : PlayerMetadata :=
  { track_id := (mapGet inner "mpris:trackid").bind DBusValue.getStr
    album := (mapGet inner "xesam:album").bind DBusValue.getStr
    album_artists := (mapGet inner "xesam:albumArtist").bind DBusValue.getStrList
    art_url := (mapGet inner "mpris:artUrl").bind DBusValue.getStr
    artists := (mapGet inner "xesam:artist").bind DBusValue.getStrList
    title := (mapGet inner "xesam:title").bind DBusValue.getStr
    track_number := (mapGet inner "xesam:trackNumber").bind DBusValue.getU32
    track_url := (mapGet inner "xesam:url").bind DBusValue.getStr }

/-- `MprisPropertiesChange::try_from` (`mpris.rs` lines 50-74): read the
first body field as a string and compare it with the interface name,
read the second body field as a string-to-variant map, then decode
`PlaybackStatus` and `Metadata` permissively. -/
def MprisPropertiesChange.try_from (message : MarshalledMessage) :
    Except DBusError MprisPropertiesChange :=
  match message.body with
  | [] => .error .Unmarshal
  | first :: rest =>
    match first.getStr with
    | none => .error .Unmarshal
    | some interface_name =>
      if interface_name ≠ MPRIS_INTERFACE then
        .error (.Invalid ("wrong interface type " ++ interface_name))
      else
        match rest with
        | [] => .error .Unmarshal
        | second :: _ =>
          match second.getMap with
          | none => .error .Unmarshal
          | some outer =>
            let metadata_map := (mapGet outer "Metadata").bind DBusValue.getMap
            let status :=
              ((mapGet outer "PlaybackStatus").bind DBusValue.getStr).bind
                (fun s => PlayerStatus.from_str s)
            let metadata := metadata_map.map metadata_from_map
            .ok { status := status, metadata := metadata }

/-- Scan to the first closing brace: `takeUntilBrace l = some (content, after)`
when `l = content ++ '\x7d' :: after` with no closing brace in `content`;
`none` when `l` has no closing brace.  This is how the greedy `[^\x7d]+\x7d`
part of the formatter's regex `(\x7b[^\x7d]+\x7d)` consumes input. -/
def takeUntilBrace : List Char → Option (List Char × List Char)
  | [] => none
  | c :: rest =>
    if c = Char.ofNat 125 then some ([], rest)
    else
      match takeUntilBrace rest with
      | some (content, after) => some (c :: content, after)
      | none => none

theorem takeUntilBrace_length {l content after : List Char}
    (h : takeUntilBrace l = some (content, after)) : after.length < l.length := by
  induction l generalizing content after with
  | nil => simp [takeUntilBrace] at h
  | cons c rest ih =>
    by_cases hc : c = Char.ofNat 125
    · simp [takeUntilBrace, hc] at h
      simp [← h.2]
    · simp only [takeUntilBrace, if_neg hc] at h
      match hr : takeUntilBrace rest with
      | some (content', after') =>
        rw [hr] at h
        simp only [Option.some.injEq, Prod.mk.injEq] at h
        have := ih hr
        rw [← h.2]
        simp; omega
      | none => rw [hr] at h; simp at h

/-- `unwrap_str_field` (`formatter.rs` lines 41-43). -/
def unwrap_str_field (field : Option String) : String := field.getD ""

/-- `unwrap_vec_field` (`formatter.rs` lines 47-53): join the entries with
the join string, or the empty string when absent. -/
def unwrap_vec_field (field : Option (List String)) (join_str : String) : String :=
  match field with
  | some entries => String.intercalate join_str entries
  | none => ""

/-- The match arms of `Replacer::replace_append` (`formatter.rs` lines
23-39): substitute a recognized brace-delimited token, pass every other
capture through verbatim. -/
def replace_append (md : PlayerMetadata) (join_str : String) (cap : String) : String :=
  if cap = "{album}" then unwrap_str_field md.album
  else if cap = "{album_artists}" then unwrap_vec_field md.album_artists join_str
  else if cap = "{album_artist}" then unwrap_vec_field md.album_artists join_str
  else if cap = "{artists}" then unwrap_vec_field md.artists join_str
  else if cap = "{artist}" then unwrap_vec_field md.artists join_str
  else if cap = "{title}" then unwrap_str_field md.title
  else if cap = "{track}" then unwrap_str_field md.title
  else if cap = "{track_number}" then toString (md.track_number.getD 1)
  else cap

/-- `FORMAT_REGEX.replace_all` over the character list: at each opening
brace, the leftmost-first match of `(\x7b[^\x7d]+\x7d)` is the segment up
to the first closing brace provided it is non-empty; the capture is
handed to `replace_append`, everything else is copied. -/
def renderChars (md : PlayerMetadata) (join_str : String) : List Char → List Char
  | [] => []
  | c :: rest =>
    if c = Char.ofNat 123 then
      match h : takeUntilBrace rest with
      | some (content, after) =>
        if content = [] then c :: renderChars md join_str rest
        else
          have : after.length < rest.length := takeUntilBrace_length h
          (replace_append md join_str
            (String.mk (c :: content ++ [Char.ofNat 125]))).data
            ++ renderChars md join_str after
      | none => c :: renderChars md join_str rest
    else c :: renderChars md join_str rest
termination_by l => l.length
decreasing_by
  all_goals simp_wf
  all_goals omega

/-- `Notifier::format_metadata` (`notifier.rs` lines 151-153), i.e. the
`Display` rendering of `FormattedNotification` (`formatter.rs` lines
17-21). -/
def format_metadata (fmt : String) (metadata : PlayerMetadata) (join_str : String) : String :=
  String.mk (renderChars metadata join_str fmt.data)

/-- `NOTIFICATION_SOURCE` (`notifier.rs` line 15). -/
def NOTIFICATION_SOURCE : String := "mpris-notifier"

/-- `NotificationImage` (`notifier.rs` lines 67-76). -/
structure NotificationImage where
  width : Int
  height : Int
  rowstride : Int
  alpha : Bool
  bits_per_sample : Int
  channels : Int
  data : List Nat
deriving DecidableEq, Repr

/-- `NotificationHintVariant` (`notifier.rs` line 64). -/
inductive NotificationHintVariant where
  | CaseString (s : String)
  | CaseNotificationImage (img : NotificationImage)
deriving DecidableEq, Repr

/-- `Notification` (`notifier.rs` lines 21-27); `Instant` is a
millisecond count. -/
structure Notification where
  sender : String
  metadata : PlayerMetadata
  album_art : Option NotificationImage
  last_touched : Nat
deriving DecidableEq, Repr

/-- `Notification::new` (`notifier.rs` lines 30-41); `now` stands for the
`Instant::now()` taken at construction. -/
def Notification.new (sender : String) (metadata : PlayerMetadata)
    (album_art : Option NotificationImage) (now : Nat) : Notification :=
  { sender := sender, metadata := metadata, album_art := album_art, last_touched := now }

/-- `Notification::update` (`notifier.rs` lines 44-52): replace the
metadata and album art and refresh the touch timestamp. -/
def Notification.update (n : Notification) (metadata : PlayerMetadata)
    (album_art : Option NotificationImage) (now : Nat) : Notification :=
  { n with metadata := metadata, album_art := album_art, last_touched := now }

/-- `Configuration` (`configuration.rs` lines 24-61). -/
structure Configuration where
  subject_format : String
  body_format : String
  join_string : String
  enable_album_art : Bool
  album_art_deadline : Nat
  commands : List (List String)
deriving DecidableEq, Repr

/-- The positional arguments of the outbound `Notify` method call, in the
order `send_notification` pushes them. -/
structure NotifyCall where
  app_name : String
  replaces_id : Nat
  icon : String
  summary : String
  body : String
  actions : List String
  hints : List (String × NotificationHintVariant)
  expire_timeout : Int
deriving DecidableEq, Repr

/-- `str::trim` on a rendered string: drop leading and trailing
whitespace characters. -/
def rustTrim (s : String) : String :=
  String.mk (((s.data.dropWhile Char.isWhitespace).reverse.dropWhile
    Char.isWhitespace).reverse)

/-- `Notifier::send_notification` (`notifier.rs` lines 103-148), modelled
as the list of outbound bus calls it performs: empty when both rendered
strings are blank after trimming, otherwise the single `Notify` call. -/
def send_notification (cfg : Configuration) (notification : Notification) :
    List NotifyCall :=
  let metadata := notification.metadata
  let album_art := notification.album_art
  let subject := format_metadata cfg.subject_format metadata cfg.join_string
  let body := format_metadata cfg.body_format metadata cfg.join_string
  if rustTrim subject = "" ∧ rustTrim body = "" then
    []
  else
    [{ app_name := NOTIFICATION_SOURCE
       replaces_id := 0
       icon := ""
       summary := subject
       body := body
       actions := []
       hints :=
         [("x-canonical-private-synchronous",
            NotificationHintVariant.CaseString NOTIFICATION_SOURCE)] ++
         (match album_art with
          | some art => [("image-data", NotificationHintVariant.CaseNotificationImage art)]
          | none => [])
       expire_timeout := -1 }]

/-- `NOTIFICATION_DELAY` (`signal_handler.rs` line 21), in milliseconds. -/
def NOTIFICATION_DELAY : Nat := 250

/-- A prepared `std::process::Command`: program plus argument list. -/
structure Cmd where
  program : String
  args : List String
deriving DecidableEq, Repr

/-- The mutable state of `SignalHandler` (`signal_handler.rs` lines
29-42): the per-sender metadata cache, the pending notification and the
pending command list. -/
structure HandlerState where
  metadata : List (String × PlayerMetadata)
  pending_notification : Option Notification
  pending_commands : List Cmd
deriving DecidableEq, Repr

/-- `SignalHandler::new` (`signal_handler.rs` lines 45-54), restricted to
the observable state. -/
def HandlerState.new : HandlerState :=
  { metadata := [], pending_notification := none, pending_commands := [] }

/-- `HashMap::get` on the sender cache. -/
def cacheGet (m : List (String × PlayerMetadata)) (k : String) : Option PlayerMetadata :=
  (m.find? (fun p => p.1 = k)).map Prod.snd

/-- `HashMap::insert` on the sender cache: overwrite any prior entry. -/
def cacheInsert (m : List (String × PlayerMetadata)) (k : String) (v : PlayerMetadata) :
    List (String × PlayerMetadata) :=
  (k, v) :: m.filter (fun p => p.1 ≠ k)

/-- One execution pass over the pending commands (`signal_handler.rs`
lines 65-72): every command is invoked in order; `outcome` reports
whether a given command succeeds, and a failure is only logged, never
short-circuiting the loop. -/
def run_commands (outcome : Cmd → Bool) (cmds : List Cmd) : List (Cmd × Bool) :=
  cmds.map (fun c => (c, outcome c))

/-- The observable outcome of one `handle_pending` call: the state after
the call, the notification handed to the composer (if the debounce
window elapsed), the outbound bus calls performed, and the commands
executed with their results. -/
structure PendingResult where
  state : HandlerState
  flushed : Option Notification
  calls : List NotifyCall
  executed : List (Cmd × Bool)
deriving Repr

/-- `SignalHandler::handle_pending` (`signal_handler.rs` lines 58-79):
when a pending notification exists and strictly more than
`NOTIFICATION_DELAY` has passed since its last touch, take it, hand it
to `send_notification`, run every pending command and clear the command
list; otherwise do nothing. -/
def handle_pending (cfg : Configuration) (outcome : Cmd → Bool) (now : Nat)
    (s : HandlerState) : PendingResult :=
  match s.pending_notification with
  | some pending =>
    if now - pending.last_touched > NOTIFICATION_DELAY then
      { state := { s with pending_notification := none, pending_commands := [] }
        flushed := some pending
        calls := send_notification cfg pending
        executed := run_commands outcome s.pending_commands }
    else
      { state := s, flushed := none, calls := [], executed := [] }
  | none => { state := s, flushed := none, calls := [], executed := [] }

/-- Rebuilding the pending command list from configuration
(`signal_handler.rs` lines 95-108): empty argument vectors are dropped,
the first entry is the program, the rest are its arguments. -/
def build_commands (commands : List (List String)) : List Cmd :=
  commands.filterMap (fun command_args =>
    match command_args with
    | [] => none
    | program :: args => some { program := program, args := args })

/-- The metadata-handling block of `handle_signal` (`signal_handler.rs`
lines 123-140): cache the new metadata for the sender; update the
pending notification in place when it belongs to the same sender
(dropping any attached art); create a fresh pending notification only
when none exists. -/
def metadataStep (now : Nat) (sender : String) (new_metadata : PlayerMetadata)
    (s : HandlerState) : HandlerState :=
  let s := { s with metadata := cacheInsert s.metadata sender new_metadata }
  match s.pending_notification with
  | some pending =>
    if pending.sender = sender then
      { s with pending_notification := some (pending.update new_metadata none now) }
    else s
  | none =>
    { s with pending_notification := some (Notification.new sender new_metadata none now) }

/-- The status-handling block of `handle_signal` (`signal_handler.rs`
lines 148-159): `Playing` replaces the pending notification with a fresh
one for this sender built from the authoritative cached metadata, with
no image; any other status clears it. -/
def statusStep (now : Nat) (sender : String) (metadata : PlayerMetadata)
    (status : PlayerStatus) (s : HandlerState) : HandlerState :=
  if status = PlayerStatus.Playing then
    { s with pending_notification := some (Notification.new sender metadata none now) }
  else
    { s with pending_notification := none }

/-- The album-art block of `handle_signal` (`signal_handler.rs` lines
169-182): when a pending notification exists, the sender's cached
metadata carries an art URL and the feature is enabled, attempt a fetch;
on success update the pending notification with the metadata and the
image, on failure leave everything as is.  `art_fetcher` models
`ArtFetcher::get_album_art` (success or failure per URL). -/
def artStep (cfg : Configuration) (art_fetcher : String → Option NotificationImage)
    (now : Nat) (metadata : PlayerMetadata) (s : HandlerState) : HandlerState :=
  match s.pending_notification with
  | none => s
  | some pending =>
    match metadata.art_url with
    | none => s
    | some url =>
      if cfg.enable_album_art then
        match art_fetcher url with
        | some data =>
          { s with pending_notification := some (pending.update metadata (some data) now) }
        | none => s
      else s

/-- `SignalHandler::handle_signal` (`signal_handler.rs` lines 84-185):
require a sender header, decode the change (failures become `none`),
rebuild the pending command list unconditionally, then run the
metadata, status and album-art blocks in order, stopping early when the
change is uninteresting, when no metadata is known for the sender, or
when no pending notification remains. -/
def handle_signal (cfg : Configuration) (art_fetcher : String → Option NotificationImage)
    (now : Nat) (s : HandlerState) (signal : MarshalledMessage) :
    Except DBusError HandlerState :=
  match signal.sender with
  | none => .error (.Invalid "Missing sender header")
  | some sender =>
    let change := (MprisPropertiesChange.try_from signal).toOption
    let s := { s with pending_commands := build_commands cfg.commands }
    match change with
    | none => .ok s
    | some change =>
      let s :=
        match change.metadata with
        | some new_metadata => metadataStep now sender new_metadata s
        | none => s
      match cacheGet s.metadata sender with
      | none => .ok s
      | some metadata =>
        let s :=
          match change.status with
          | some status => statusStep now sender metadata status s
          | none => s
        match s.pending_notification with
        | none => .ok s
        | some _ => .ok (artStep cfg art_fetcher now metadata s)

/-- The recognized brace-delimited tokens of the Format Engine
(`formatter.rs` lines 27-36). -/
def recognized_tokens : List String :=
  ["{album}", "{album_artists}", "{album_artist}", "{artists}", "{artist}",
   "{title}", "{track}", "{track_number}"]

/-- A sample metadata record carrying only a title, used to instantiate
theorems at concrete inputs. -/
def sampleMeta (t : String) : PlayerMetadata :=
  { track_id := none, album := none, album_artists := none, art_url := none,
    artists := none, title := some t, track_number := none, track_url := none }

/-- A sample 1x1 RGB image payload. -/
def sampleImage : NotificationImage :=
  { width := 1, height := 1, rowstride := 3, alpha := false,
    bits_per_sample := 8, channels := 3, data := [0, 0, 0] }

/-- A sample configuration with a plain-text subject template. -/
def plainCfg : Configuration :=
  { subject_format := "x", body_format := "", join_string := ", ",
    enable_album_art := false, album_art_deadline := 1000, commands := [] }

/-- A sample configuration whose templates render entirely blank. -/
def blankCfg : Configuration :=
  { subject_format := "", body_format := " ", join_string := ", ",
    enable_album_art := false, album_art_deadline := 1000, commands := [] }

/-- A sample armed notification touched at time 0. -/
def pendNotif : Notification := Notification.mk ":1.3" (sampleMeta "t") none 0

/-- A sample handler state with an armed notification and one pending
command. -/
def pendState : HandlerState :=
  HandlerState.mk [] (some pendNotif) [Cmd.mk "true" []]

/-- Whether the first body field is a string equal to the MPRIS player
interface name (the decoder's acceptance test on the first field). -/
def firstFieldIsMpris : List DBusValue → Bool
  | DBusValue.str s :: _ => decide (s = MPRIS_INTERFACE)
  | _ => false

/-- A `PropertiesChanged` signal carrying only a `Metadata` map. -/
def metaOnlySignal (sender : String) (inner : List (String × DBusValue)) :
    MarshalledMessage :=
  { sender := some sender,
    body := [DBusValue.str MPRIS_INTERFACE,
      DBusValue.map [("Metadata", DBusValue.map inner)]] }

/-- A `PropertiesChanged` signal carrying a `Metadata` map and a
`Playing` playback status. -/
def metaPlayingSignal (sender : String) (inner : List (String × DBusValue)) :
    MarshalledMessage :=
  { sender := some sender,
    body := [DBusValue.str MPRIS_INTERFACE,
      DBusValue.map [("Metadata", DBusValue.map inner),
        ("PlaybackStatus", DBusValue.str "Playing")]] }

/-- A `PropertiesChanged` signal carrying only a playback status. -/
def statusOnlySignal (sender status : String) : MarshalledMessage :=
  { sender := some sender,
    body := [DBusValue.str MPRIS_INTERFACE,
      DBusValue.map [("PlaybackStatus", DBusValue.str status)]] }

/-- A sample configuration with one external command. -/
def cmdCfg : Configuration :=
  { subject_format := "{track}", body_format := "{album} - {artist}", join_string := ", ",
    enable_album_art := false, album_art_deadline := 1000, commands := [["echo"]] }

/-- Inner metadata map for sender A in the two-sender scenario. -/
def C3innerA : List (String × DBusValue) := [("xesam:title", DBusValue.str "a")]

/-- Inner metadata map for sender B in the two-sender scenario. -/
def C3innerB : List (String × DBusValue) := [("xesam:title", DBusValue.str "b")]

/-- The state after sender A's metadata signal at time 0 from the fresh
state under `cmdCfg`. -/
def C3s1 : HandlerState :=
  HandlerState.mk [(":1.1", metadata_from_map C3innerA)]
    (some (Notification.mk ":1.1" (metadata_from_map C3innerA) none 0))
    [Cmd.mk "echo" []]

/-- The state after sender B's metadata-plus-Playing signal at time 100
on `C3s1`. -/
def C3s2W : HandlerState :=
  HandlerState.mk (cacheInsert [(":1.1", metadata_from_map C3innerA)] ":1.2"
      (metadata_from_map C3innerB))
    (some (Notification.mk ":1.2" (metadata_from_map C3innerB) none 100))
    [Cmd.mk "echo" []]

/-! ### Helper lemmas -/

theorem try_from_ok_shape (message : MarshalledMessage) (c : MprisPropertiesChange)
    (h : MprisPropertiesChange.try_from message = .ok c) :
    ∃ outer rest, message.body = DBusValue.str MPRIS_INTERFACE :: DBusValue.map outer :: rest := by
  unfold MprisPropertiesChange.try_from at h
  cases hb : message.body with
  | nil => rw [hb] at h; exact absurd h (by simp)
  | cons first rest =>
    rw [hb] at h
    cases first with
    | str s =>
      simp only [DBusValue.getStr] at h
      by_cases hs : s ≠ MPRIS_INTERFACE
      · rw [if_pos hs] at h; exact absurd h (by simp)
      · push_neg at hs
        rw [if_neg (by simp [hs])] at h
        cases rest with
        | nil => exact absurd h (by simp)
        | cons second tail =>
          cases second with
          | map outer => exact ⟨outer, tail, by subst hs; rfl⟩
          | str s2 => exact absurd h (by simp [DBusValue.getMap])
          | strList xs => exact absurd h (by simp [DBusValue.getMap])
          | uint32 n => exact absurd h (by simp [DBusValue.getMap])
          | other => exact absurd h (by simp [DBusValue.getMap])
    | strList xs => exact absurd h (by simp [DBusValue.getStr])
    | uint32 n => exact absurd h (by simp [DBusValue.getStr])
    | map m => exact absurd h (by simp [DBusValue.getStr])
    | other => exact absurd h (by simp [DBusValue.getStr])

theorem try_from_shape_ok (message : MarshalledMessage)
    (outer : List (String × DBusValue)) (rest : List DBusValue)
    (hb : message.body = DBusValue.str MPRIS_INTERFACE :: DBusValue.map outer :: rest) :
    MprisPropertiesChange.try_from message = .ok
      { status := ((mapGet outer "PlaybackStatus").bind DBusValue.getStr).bind
          PlayerStatus.from_str
        metadata := ((mapGet outer "Metadata").bind DBusValue.getMap).map metadata_from_map } := by
  unfold MprisPropertiesChange.try_from
  rw [hb]
  simp [DBusValue.getStr, DBusValue.getMap]

theorem takeUntilBrace_no_brace (content after : List Char)
    (h : Char.ofNat 125 ∉ content) :
    takeUntilBrace (content ++ Char.ofNat 125 :: after) = some (content, after) := by
  induction content with
  | nil => simp [takeUntilBrace]
  | cons c cs ih =>
    simp only [List.mem_cons, not_or] at h
    simp only [List.cons_append, takeUntilBrace]
    rw [if_neg (fun hc => h.1 hc.symm)]
    rw [show List.append cs (Char.ofNat 125 :: after) = cs ++ Char.ofNat 125 :: after from rfl,
      ih h.2]

theorem renderChars_single_token (md : PlayerMetadata) (join_str : String)
    (content : List Char) (hnb : Char.ofNat 125 ∉ content) (hne : content ≠ []) :
    renderChars md join_str (Char.ofNat 123 :: content ++ [Char.ofNat 125])
      = (replace_append md join_str
          (String.mk (Char.ofNat 123 :: content ++ [Char.ofNat 125]))).data := by
  have ht : takeUntilBrace (content ++ [Char.ofNat 125]) = some (content, []) := by
    simpa using takeUntilBrace_no_brace content [] hnb
  rw [renderChars.eq_def]
  split
  next heq => exact absurd heq (by simp)
  next c rest hcr =>
    have hc : c = Char.ofNat 123 := by
      injection hcr with h1 h2
      exact h1.symm
    have hrest : rest = content ++ [Char.ofNat 125] := by
      injection hcr with h1 h2
      exact h2.symm
    subst hc
    subst hrest
    rw [if_pos rfl]
    split
    next content2 after h2 =>
      rw [ht] at h2
      injection h2 with h3
      have hc2 : content2 = content := (congrArg Prod.fst h3).symm
      have ha2 : after = ([] : List Char) := (congrArg Prod.snd h3).symm
      subst hc2
      subst ha2
      rw [if_neg hne]
      simp [renderChars.eq_def]
    next h2 =>
      rw [ht] at h2
      exact absurd h2 (by simp)

theorem format_metadata_token (md : PlayerMetadata) (sep : String)
    (content : List Char) (hnb : Char.ofNat 125 ∉ content) (hne : content ≠ []) :
    format_metadata (String.mk (Char.ofNat 123 :: content ++ [Char.ofNat 125])) md sep
      = replace_append md sep (String.mk (Char.ofNat 123 :: content ++ [Char.ofNat 125])) := by
  unfold format_metadata
  show String.mk (renderChars md sep (Char.ofNat 123 :: content ++ [Char.ofNat 125])) = _
  rw [renderChars_single_token md sep content hnb hne]

theorem try_from_not_mpris (msg : MarshalledMessage)
    (hb : firstFieldIsMpris msg.body = false) :
    ∃ e, MprisPropertiesChange.try_from msg = .error e := by
  unfold MprisPropertiesChange.try_from
  cases hB : msg.body with
  | nil => exact ⟨DBusError.Unmarshal, rfl⟩
  | cons first rest =>
    cases first with
    | str s =>
      rw [hB] at hb
      simp only [firstFieldIsMpris, decide_eq_false_iff_not] at hb
      exact ⟨DBusError.Invalid ("wrong interface type " ++ s),
        by simp [DBusValue.getStr, hb]⟩
    | strList xs => exact ⟨DBusError.Unmarshal, by simp [DBusValue.getStr]⟩
    | uint32 n => exact ⟨DBusError.Unmarshal, by simp [DBusValue.getStr]⟩
    | map m => exact ⟨DBusError.Unmarshal, by simp [DBusValue.getStr]⟩
    | other => exact ⟨DBusError.Unmarshal, by simp [DBusValue.getStr]⟩

theorem cacheGet_insert (m : List (String × PlayerMetadata)) (k : String)
    (v : PlayerMetadata) : cacheGet (cacheInsert m k v) k = some v := by
  simp [cacheGet, cacheInsert]

theorem artStep_fresh (cfg : Configuration) (art : String → Option NotificationImage)
    (now : Nat) (meta : PlayerMetadata) (s : HandlerState) (sender : String)
    (hp : s.pending_notification = some (Notification.mk sender meta none now)) :
    ∃ aopt, artStep cfg art now meta s
      = { s with pending_notification := some (Notification.mk sender meta aopt now) } := by
  unfold artStep
  rw [hp]
  dsimp only
  cases hau : meta.art_url with
  | none =>
    refine ⟨none, ?_⟩
    dsimp only
    conv_rhs => rw [← hp]
  | some url =>
    dsimp only
    by_cases he : cfg.enable_album_art
    · rw [if_pos he]
      cases haf : art url with
      | some data =>
        refine ⟨some data, ?_⟩
        dsimp only
        rfl
      | none =>
        refine ⟨none, ?_⟩
        dsimp only
        conv_rhs => rw [← hp]
    · refine ⟨none, ?_⟩
      rw [if_neg he]
      conv_rhs => rw [← hp]

theorem handle_signal_ok_decomp (cfg : Configuration)
    (art : String → Option NotificationImage) (now : Nat) (s : HandlerState)
    (sig : MarshalledMessage) (sender : String) (change : MprisPropertiesChange)
    (hs : sig.sender = some sender)
    (hc : MprisPropertiesChange.try_from sig = .ok change) :
    handle_signal cfg art now s sig =
      (let s1 : HandlerState := { s with pending_commands := build_commands cfg.commands }
       let s2 : HandlerState :=
         match change.metadata with
         | some nm => metadataStep now sender nm s1
         | none => s1
       match cacheGet s2.metadata sender with
       | none => .ok s2
       | some metadata =>
         let s3 : HandlerState :=
           match change.status with
           | some status => statusStep now sender metadata status s2
           | none => s2
         match s3.pending_notification with
         | none => .ok s3
         | some _ => .ok (artStep cfg art now metadata s3)) := by
  unfold handle_signal
  rw [hs]
  dsimp only
  rw [hc]
  dsimp only [Except.toOption]

theorem metadataStep_metadata (now : Nat) (sender : String) (nm : PlayerMetadata)
    (s : HandlerState) :
    (metadataStep now sender nm s).metadata = cacheInsert s.metadata sender nm := by
  unfold metadataStep
  dsimp only
  cases hp : s.pending_notification with
  | none => rfl
  | some p =>
    dsimp only
    by_cases hps : p.sender = sender
    · rw [if_pos hps]
    · rw [if_neg hps]

theorem metadataStep_commands (now : Nat) (sender : String) (nm : PlayerMetadata)
    (s : HandlerState) :
    (metadataStep now sender nm s).pending_commands = s.pending_commands := by
  unfold metadataStep
  dsimp only
  cases hp : s.pending_notification with
  | none => rfl
  | some p =>
    dsimp only
    by_cases hps : p.sender = sender
    · rw [if_pos hps]
    · rw [if_neg hps]

theorem HandlerState.ext_fields (a b : HandlerState) (h1 : a.metadata = b.metadata)
    (h2 : a.pending_notification = b.pending_notification)
    (h3 : a.pending_commands = b.pending_commands) : a = b := by
  cases a
  cases b
  cases h1
  cases h2
  cases h3
  rfl

theorem handle_signal_metaOnly_new (cfg : Configuration)
    (art : String → Option NotificationImage) (t : Nat) (A : String)
    (inner : List (String × DBusValue)) :
    ∃ aopt, handle_signal cfg art t HandlerState.new (metaOnlySignal A inner)
      = .ok (HandlerState.mk [(A, metadata_from_map inner)]
          (some (Notification.mk A (metadata_from_map inner) aopt t))
          (build_commands cfg.commands)) := by
  obtain ⟨aopt, hart⟩ := artStep_fresh cfg art t (metadata_from_map inner)
    (HandlerState.mk [(A, metadata_from_map inner)]
      (some (Notification.mk A (metadata_from_map inner) none t))
      (build_commands cfg.commands)) A rfl
  refine ⟨aopt, ?_⟩
  have hc : MprisPropertiesChange.try_from (metaOnlySignal A inner)
      = .ok { status := none, metadata := some (metadata_from_map inner) } := rfl
  rw [handle_signal_ok_decomp cfg art t HandlerState.new (metaOnlySignal A inner) A
    { status := none, metadata := some (metadata_from_map inner) } rfl hc]
  dsimp only [metadataStep, cacheInsert, HandlerState.new, List.filter]
  rw [show cacheGet [(A, metadata_from_map inner)] A = some (metadata_from_map inner) by
    simp [cacheGet]]
  dsimp only
  exact congrArg Except.ok hart

theorem handle_signal_metaPlaying (cfg : Configuration)
    (art : String → Option NotificationImage) (t : Nat) (B : String)
    (inner : List (String × DBusValue)) (s : HandlerState) :
    ∃ aopt, handle_signal cfg art t s (metaPlayingSignal B inner)
      = .ok (HandlerState.mk (cacheInsert s.metadata B (metadata_from_map inner))
          (some (Notification.mk B (metadata_from_map inner) aopt t))
          (build_commands cfg.commands)) := by
  obtain ⟨aopt, hart⟩ := artStep_fresh cfg art t (metadata_from_map inner)
    { metadataStep t B (metadata_from_map inner)
        { s with pending_commands := build_commands cfg.commands } with
      pending_notification :=
        some (Notification.mk B (metadata_from_map inner) none t) } B rfl
  refine ⟨aopt, ?_⟩
  have hc : MprisPropertiesChange.try_from (metaPlayingSignal B inner)
      = .ok { status := some PlayerStatus.Playing,
              metadata := some (metadata_from_map inner) } := rfl
  rw [handle_signal_ok_decomp cfg art t s (metaPlayingSignal B inner) B
    { status := some PlayerStatus.Playing,
      metadata := some (metadata_from_map inner) } rfl hc]
  dsimp only
  rw [show (metadataStep t B (metadata_from_map inner)
      { s with pending_commands := build_commands cfg.commands }).metadata
    = cacheInsert s.metadata B (metadata_from_map inner) from
      metadataStep_metadata t B (metadata_from_map inner) _]
  rw [cacheGet_insert]
  dsimp only [statusStep]
  rw [if_pos rfl]
  dsimp only
  exact (congrArg Except.ok hart).trans
    (congrArg Except.ok (HandlerState.ext_fields _ _
      (metadataStep_metadata t B (metadata_from_map inner) _)
      rfl
      (metadataStep_commands t B (metadata_from_map inner) _)))

/-! ### Claims about the signal decoder -/

/-- Claim C8: parsing the PlaybackStatus string yields `Playing`, `Paused`
or `Stopped` exactly for the inputs "Playing", "Paused", "Stopped"; every
other string parses to nothing, and in the decoder the failure is
swallowed: the decoded change's status is absent, never `Playing`. -/
theorem C8_playback_status_parse (s : String) :
    PlayerStatus.from_str "Playing" = some PlayerStatus.Playing
    ∧ PlayerStatus.from_str "Paused" = some PlayerStatus.Paused
    ∧ PlayerStatus.from_str "Stopped" = some PlayerStatus.Stopped
    ∧ (s ≠ "Playing" → s ≠ "Paused" → s ≠ "Stopped" → PlayerStatus.from_str s = none)
    ∧ (∀ (sender : Option String) (entries : List (String × DBusValue))
        (tail : List DBusValue),
        ∃ c, MprisPropertiesChange.try_from
            { sender := sender,
              body := DBusValue.str MPRIS_INTERFACE ::
                DBusValue.map (("PlaybackStatus", DBusValue.str s) :: entries) :: tail }
          = .ok c ∧ c.status = PlayerStatus.from_str s) := by
  refine ⟨rfl, rfl, rfl, ?_, ?_⟩
  · intro h1 h2 h3
    simp [PlayerStatus.from_str, h1, h2, h3]
  · intro sender entries tail
    refine ⟨_, try_from_shape_ok _ _ _ rfl, ?_⟩
    simp [mapGet, List.find?, DBusValue.getStr]

/-- Claim C8 witness: the unrecognized status string "Nope" parses to
nothing. -/
theorem C8_witness : PlayerStatus.from_str "Nope" = none :=
  (C8_playback_status_parse "Nope").2.2.2.1 (by decide) (by decide) (by decide)

/-- Claim C4 counterexample: a message whose body holds the correct
interface name but no second field at all is rejected by the decoder,
although its body is non-empty and its first body field equals the MPRIS
player interface name — so the decoder has a third error case beyond the
two the claim allows. -/
theorem C4_counterexample :
    MprisPropertiesChange.try_from
        { sender := some ":1.7", body := [DBusValue.str MPRIS_INTERFACE] }
      = .error DBusError.Unmarshal
    ∧ ([DBusValue.str MPRIS_INTERFACE] : List DBusValue) ≠ []
    ∧ (DBusValue.str MPRIS_INTERFACE).getStr = some MPRIS_INTERFACE := by
  refine ⟨?_, by simp, rfl⟩
  unfold MprisPropertiesChange.try_from
  simp [DBusValue.getStr]

/-- Claim C4 (amended): decoding a raw bus message returns a
`PropertiesChange` exactly when the body starts with a string equal to
the MPRIS player interface name followed by a string-to-variant map (it
errors when the body is empty, when the first field is not that string,
or when the second field is missing or not such a map); on success the
status and metadata are the permissive lookups, where any individual
inner-field decode failure degrades only that field to absent and never
fails the whole decode. -/
theorem C4_try_from_error_cases (message : MarshalledMessage) :
    ((∃ c, MprisPropertiesChange.try_from message = .ok c) ↔
      ∃ outer rest,
        message.body = DBusValue.str MPRIS_INTERFACE :: DBusValue.map outer :: rest)
    ∧ (∀ outer rest,
        message.body = DBusValue.str MPRIS_INTERFACE :: DBusValue.map outer :: rest →
        MprisPropertiesChange.try_from message = .ok
          { status := ((mapGet outer "PlaybackStatus").bind DBusValue.getStr).bind
              PlayerStatus.from_str
            metadata :=
              ((mapGet outer "Metadata").bind DBusValue.getMap).map metadata_from_map }) := by
  refine ⟨⟨?_, ?_⟩, ?_⟩
  · rintro ⟨c, hc⟩
    exact try_from_ok_shape message c hc
  · rintro ⟨outer, rest, hb⟩
    exact ⟨_, try_from_shape_ok message outer rest hb⟩
  · intro outer rest hb
    exact try_from_shape_ok message outer rest hb

/-- Claim C4 witness: a concrete well-shaped message whose inner metadata
map has an undecodable title decodes successfully, with only the title
degraded to absent. -/
theorem C4_witness :
    MprisPropertiesChange.try_from
        { sender := some ":1.7",
          body := [DBusValue.str MPRIS_INTERFACE,
            DBusValue.map
              [("Metadata",
                DBusValue.map
                  [("xesam:title", DBusValue.uint32 3),
                   ("xesam:album", DBusValue.str "a")])]] }
      = .ok
        { status := ((mapGet
              [("Metadata",
                DBusValue.map
                  [("xesam:title", DBusValue.uint32 3),
                   ("xesam:album", DBusValue.str "a")])] "PlaybackStatus").bind
            DBusValue.getStr).bind PlayerStatus.from_str
          metadata :=
            ((mapGet
              [("Metadata",
                DBusValue.map
                  [("xesam:title", DBusValue.uint32 3),
                   ("xesam:album", DBusValue.str "a")])] "Metadata").bind
              DBusValue.getMap).map metadata_from_map } :=
  (C4_try_from_error_cases _).2 _ _ rfl

/-! ### Claims about the coalescing steps -/

/-- Claim C5: the status-handling block of `handle_signal` replaces the
pending notification with a fresh one for the sender built from the
authoritative cached metadata, with no attached image and a fresh touch
timestamp, when the status is `Playing`; it clears the pending
notification entirely when the status is `Paused` or `Stopped`. -/
theorem C5_status_playing_rearms_others_clear (now : Nat) (sender : String)
    (metadata : PlayerMetadata) (s : HandlerState) :
    statusStep now sender metadata PlayerStatus.Playing s
      = ({ s with
            pending_notification :=
              some { sender := sender, metadata := metadata,
                     album_art := none, last_touched := now } } : HandlerState)
    ∧ statusStep now sender metadata PlayerStatus.Paused s
      = { s with pending_notification := none }
    ∧ statusStep now sender metadata PlayerStatus.Stopped s
      = { s with pending_notification := none } :=
  ⟨rfl, rfl, rfl⟩

/-- Claim C10: when a metadata-carrying signal arrives from the sender
that owns the pending notification, the in-place update replaces the
notification's metadata, discards any attached album art (set to
absent, pending possible re-fetch later in the same signal's
processing), and refreshes the touch timestamp, while the cache entry is
overwritten. -/
theorem C10_same_sender_update_drops_art (now : Nat) (sender : String)
    (new_metadata : PlayerMetadata) (s : HandlerState) (p : Notification)
    (hp : s.pending_notification = some p) (hs : p.sender = sender) :
    metadataStep now sender new_metadata s
      = ({ s with
            metadata := cacheInsert s.metadata sender new_metadata,
            pending_notification :=
              some { sender := sender, metadata := new_metadata,
                     album_art := none, last_touched := now } } : HandlerState) := by
  unfold metadataStep
  rw [hp]
  simp [hs, Notification.update]

/-- Claim C10 witness: a concrete same-sender update replaces the
metadata, drops the attached image and refreshes the timestamp. -/
theorem C10_witness :
    metadataStep 7 ":1.4" (sampleMeta "b")
        (HandlerState.mk []
          (some (Notification.mk ":1.4" (sampleMeta "a") (some sampleImage) 2)) [])
      = HandlerState.mk (cacheInsert [] ":1.4" (sampleMeta "b"))
          (some (Notification.mk ":1.4" (sampleMeta "b") none 7)) [] :=
  C10_same_sender_update_drops_art 7 ":1.4" _ _ _ rfl rfl

/-! ### Claims about the notification composer and the flush -/

/-- Claim C7: the composer performs no outbound bus call (and reports
success) exactly when both the rendered subject and the rendered body
are empty after trimming whitespace; in every other case it performs
exactly one outbound call. -/
theorem C7_blank_notification_suppressed (cfg : Configuration) (n : Notification) :
    (send_notification cfg n = [] ↔
      rustTrim (format_metadata cfg.subject_format n.metadata cfg.join_string) = ""
      ∧ rustTrim (format_metadata cfg.body_format n.metadata cfg.join_string) = "")
    ∧ (¬ (rustTrim (format_metadata cfg.subject_format n.metadata cfg.join_string) = ""
          ∧ rustTrim (format_metadata cfg.body_format n.metadata cfg.join_string) = "") →
        (send_notification cfg n).length = 1) := by
  unfold send_notification
  by_cases h : rustTrim (format_metadata cfg.subject_format n.metadata cfg.join_string) = ""
      ∧ rustTrim (format_metadata cfg.body_format n.metadata cfg.join_string) = ""
  · simp [h]
  · simp [h]

/-- Claim C7 witness: with a plain non-blank subject template the
composer performs exactly one outbound call. -/
theorem C7_witness :
    (send_notification plainCfg (Notification.mk ":1.9" (sampleMeta "t") none 0)).length = 1 := by
  refine (C7_blank_notification_suppressed plainCfg _).2 ?_
  intro hcon
  have h1 := hcon.1
  simp [plainCfg, format_metadata, renderChars] at h1
  exact absurd h1 (by decide)

/-- Claim C2: a pending notification is flushed on a tick exactly when it
exists and strictly more than the 250 ms debounce window has passed
since its last touch; on a flush it is handed to the composer, every
pending command is executed in order regardless of individual failures,
and both the pending notification and the command list are cleared;
otherwise the tick changes nothing. -/
theorem C2_debounce_window_flush (cfg : Configuration) (outcome : Cmd → Bool)
    (now : Nat) (s : HandlerState) :
    ((handle_pending cfg outcome now s).flushed.isSome ↔
      ∃ p, s.pending_notification = some p ∧ now - p.last_touched > NOTIFICATION_DELAY)
    ∧ (∀ p, s.pending_notification = some p →
        now - p.last_touched > NOTIFICATION_DELAY →
        handle_pending cfg outcome now s =
          PendingResult.mk ({ s with pending_notification := none, pending_commands := [] })
            (some p) (send_notification cfg p) (run_commands outcome s.pending_commands))
    ∧ (∀ p, s.pending_notification = some p →
        ¬ now - p.last_touched > NOTIFICATION_DELAY →
        handle_pending cfg outcome now s = PendingResult.mk s none [] [])
    ∧ (s.pending_notification = none →
        handle_pending cfg outcome now s = PendingResult.mk s none [] [])
    ∧ ((run_commands outcome s.pending_commands).map Prod.fst = s.pending_commands) := by
  refine ⟨?_, ?_, ?_, ?_, ?_⟩
  · unfold handle_pending
    cases hp : s.pending_notification with
    | none => simp
    | some p =>
      by_cases hd : now - p.last_touched > NOTIFICATION_DELAY
      · simp [hd]
      · simp [hd]
  · intro p hp hd
    unfold handle_pending
    rw [hp]
    dsimp only
    rw [if_pos hd]
  · intro p hp hd
    unfold handle_pending
    rw [hp]
    dsimp only
    rw [if_neg hd]
  · intro hp
    unfold handle_pending
    rw [hp]
  · show List.map Prod.fst (List.map (fun c => (c, outcome c)) s.pending_commands)
      = s.pending_commands
    rw [List.map_map]
    exact List.map_id' s.pending_commands

/-- Claim C2 witness: at time 300 a notification touched at time 0 is
flushed, its command executed, and the state cleared. -/
theorem C2_witness :
    handle_pending plainCfg (fun _ => false) 300 pendState =
      PendingResult.mk (HandlerState.mk pendState.metadata none [])
        (some pendNotif) (send_notification plainCfg pendNotif)
        (run_commands (fun _ => false) pendState.pending_commands) :=
  (C2_debounce_window_flush plainCfg (fun _ => false) 300 pendState).2.1
    pendNotif rfl (by decide)

/-- Claim C9: when the debounce window has elapsed but the composed
notification is suppressed (both rendered strings blank after
trimming), the flush still happens: no outbound call is made, yet every
pending command is executed and both the pending notification and the
command list are cleared. -/
theorem C9_suppressed_flush_still_executes (cfg : Configuration) (outcome : Cmd → Bool)
    (now : Nat) (s : HandlerState) (p : Notification)
    (hp : s.pending_notification = some p)
    (hdue : now - p.last_touched > NOTIFICATION_DELAY)
    (hsub : rustTrim (format_metadata cfg.subject_format p.metadata cfg.join_string) = "")
    (hbody : rustTrim (format_metadata cfg.body_format p.metadata cfg.join_string) = "") :
    handle_pending cfg outcome now s =
      PendingResult.mk ({ s with pending_notification := none, pending_commands := [] })
        (some p) [] (run_commands outcome s.pending_commands) := by
  have hcalls : send_notification cfg p = [] := by
    unfold send_notification
    simp [hsub, hbody]
  unfold handle_pending
  rw [hp]
  dsimp only
  rw [if_pos hdue, hcalls]

/-- Claim C9 witness: with blank templates, the due notification is
flushed without an outbound call while the command still runs and the
state is cleared. -/
theorem C9_witness :
    handle_pending blankCfg (fun _ => true) 300 pendState =
      PendingResult.mk (HandlerState.mk pendState.metadata none [])
        (some pendNotif) [] (run_commands (fun _ => true) pendState.pending_commands) := by
  refine C9_suppressed_flush_still_executes blankCfg (fun _ => true) 300 pendState
    pendNotif rfl (by decide) ?_ ?_
  · have h : format_metadata blankCfg.subject_format pendNotif.metadata blankCfg.join_string
        = "" := by
      simp [blankCfg, pendNotif, format_metadata, renderChars]
    rw [h]
    decide
  · have h : format_metadata blankCfg.body_format pendNotif.metadata blankCfg.join_string
        = " " := by
      simp [blankCfg, pendNotif, format_metadata, renderChars]
    rw [h]
    decide

/-! ### Claim about the format engine -/

/-- Claim C6: rendering is a pure function of (template, metadata,
separator): a single brace-delimited token renders as its
`replace_append` substitution, where `artist`, `album_artist` and
`track` alias `artists`, `album_artists` and `title`; multi-valued
fields join with the separator and render empty when absent;
`track_number` renders as "1" when absent and in decimal when present;
and any token outside the recognized set passes through verbatim. -/
theorem C6_format_engine_tokens (md : PlayerMetadata) (sep : String)
    (content : List Char) (hnb : Char.ofNat 125 ∉ content) (hne : content ≠ []) :
    (format_metadata (String.mk (Char.ofNat 123 :: content ++ [Char.ofNat 125])) md sep
      = replace_append md sep (String.mk (Char.ofNat 123 :: content ++ [Char.ofNat 125])))
    ∧ replace_append md sep "{album}" = unwrap_str_field md.album
    ∧ replace_append md sep "{title}" = unwrap_str_field md.title
    ∧ replace_append md sep "{artists}" = unwrap_vec_field md.artists sep
    ∧ replace_append md sep "{album_artists}" = unwrap_vec_field md.album_artists sep
    ∧ replace_append md sep "{artist}" = replace_append md sep "{artists}"
    ∧ replace_append md sep "{album_artist}" = replace_append md sep "{album_artists}"
    ∧ replace_append md sep "{track}" = replace_append md sep "{title}"
    ∧ (md.artists = none → replace_append md sep "{artists}" = "")
    ∧ (∀ xs, md.artists = some xs →
        replace_append md sep "{artists}" = String.intercalate sep xs)
    ∧ (md.track_number = none → replace_append md sep "{track_number}" = "1")
    ∧ (∀ n, md.track_number = some n →
        replace_append md sep "{track_number}" = toString n)
    ∧ (String.mk (Char.ofNat 123 :: content ++ [Char.ofNat 125]) ∉ recognized_tokens →
        format_metadata (String.mk (Char.ofNat 123 :: content ++ [Char.ofNat 125])) md sep
          = String.mk (Char.ofNat 123 :: content ++ [Char.ofNat 125])) := by
  refine ⟨format_metadata_token md sep content hnb hne,
    rfl, rfl, rfl, rfl, rfl, rfl, rfl, ?_, ?_, ?_, ?_, ?_⟩
  · intro h
    show unwrap_vec_field md.artists sep = ""
    simp [unwrap_vec_field, h]
  · intro xs h
    show unwrap_vec_field md.artists sep = String.intercalate sep xs
    simp [unwrap_vec_field, h]
  · intro h
    show toString (md.track_number.getD 1) = "1"
    rw [h]
    rfl
  · intro n h
    show toString (md.track_number.getD 1) = toString n
    rw [h]
    rfl
  · intro hmem
    simp only [recognized_tokens, List.mem_cons, List.not_mem_nil, or_false, not_or] at hmem
    obtain ⟨n1, n2, n3, n4, n5, n6, n7, n8⟩ := hmem
    rw [format_metadata_token md sep content hnb hne]
    unfold replace_append
    repeat' split
    all_goals try rfl
    all_goals exact absurd (by assumption) (by assumption)

/-- Claim C6 witness: the unrecognized token string made of the braces
around "nop" passes through the renderer unchanged. -/
theorem C6_witness :
    format_metadata (String.mk (Char.ofNat 123 :: ['n', 'o', 'p'] ++ [Char.ofNat 125]))
        (sampleMeta "t") ", "
      = String.mk (Char.ofNat 123 :: ['n', 'o', 'p'] ++ [Char.ofNat 125]) :=
  (C6_format_engine_tokens (sampleMeta "t") ", " ['n', 'o', 'p'] (by decide)
      (by decide)).2.2.2.2.2.2.2.2.2.2.2.2 (by decide)

/-! ### Claims about signal handling -/

/-- Claim C1 counterexample: a signal with a sender whose first body
field is not the MPRIS player interface name still mutates the pending
command list: starting from the fresh state with no pending commands and
a configuration with one command, `handle_signal` returns a state whose
command list is non-empty, so the observable state is not left exactly
as it was. -/
theorem C1_counterexample :
    handle_signal cmdCfg (fun _ => none) 0 HandlerState.new
        (MarshalledMessage.mk (some ":1.5")
          [DBusValue.str "org.freedesktop.DBus.Properties"])
      = .ok (HandlerState.mk [] none [Cmd.mk "echo" []])
    ∧ HandlerState.mk [] none [Cmd.mk "echo" []] ≠ HandlerState.new :=
  ⟨rfl, by decide⟩

/-- Claim C1 (amended): for every signal carrying a sender whose first
body field is not the MPRIS player interface name, `handle_signal`
leaves the sender metadata cache and the pending notification unchanged
but unconditionally rebuilds the pending command list from the
configuration, discarding the prior list. -/
theorem C1_wrong_interface_rebuilds_commands (cfg : Configuration)
    (art : String → Option NotificationImage) (now : Nat) (s : HandlerState)
    (sig : MarshalledMessage) (sender : String)
    (hs : sig.sender = some sender)
    (hb : firstFieldIsMpris sig.body = false) :
    handle_signal cfg art now s sig
      = .ok ({ s with pending_commands := build_commands cfg.commands } : HandlerState) := by
  obtain ⟨e, he⟩ := try_from_not_mpris sig hb
  unfold handle_signal
  rw [hs]
  dsimp only
  rw [he]
  rfl

/-- Claim C1 witness: a wrong-interface signal keeps the cache and the
armed notification of a concrete state intact while the command list is
rebuilt. -/
theorem C1_witness :
    handle_signal cmdCfg (fun _ => none) 5 pendState
        (MarshalledMessage.mk (some ":1.6") [DBusValue.str "org.other"])
      = .ok ({ pendState with pending_commands := build_commands cmdCfg.commands } :
          HandlerState) :=
  C1_wrong_interface_rebuilds_commands cmdCfg (fun _ => none) 5 pendState
    (MarshalledMessage.mk (some ":1.6") [DBusValue.str "org.other"]) ":1.6" rfl (by decide)

/-- Claim C3 (amended): if sender A's metadata signal armed the pending
notification and, before A's debounce window elapses, a signal from a
different sender B carrying B's metadata and a Playing status is
processed, then A's pending notification is replaced wholesale by one
for B, no flush can have happened before B's signal, and the flush after
B's window yields B's notification (whose sender is not A). -/
theorem C3_playing_from_other_sender_supersedes (cfg : Configuration)
    (art : String → Option NotificationImage) (outcome : Cmd → Bool)
    (A B : String) (innerA innerB : List (String × DBusValue))
    (t0 t1 t2 : Nat) (s1 s2 : HandlerState)
    (hAB : A ≠ B)
    (h1 : handle_signal cfg art t0 HandlerState.new (metaOnlySignal A innerA) = .ok s1)
    (h2 : handle_signal cfg art t1 s1 (metaPlayingSignal B innerB) = .ok s2)
    (_hwin : t1 ≤ t0 + NOTIFICATION_DELAY)
    (hdue : t2 - t1 > NOTIFICATION_DELAY) :
    (∀ t, t ≤ t0 + NOTIFICATION_DELAY →
      (handle_pending cfg outcome t s1).flushed = none)
    ∧ (∃ aopt, s2.pending_notification
        = some (Notification.mk B (metadata_from_map innerB) aopt t1))
    ∧ (∃ aopt, (handle_pending cfg outcome t2 s2).flushed
        = some (Notification.mk B (metadata_from_map innerB) aopt t1)
        ∧ (Notification.mk B (metadata_from_map innerB) aopt t1).sender ≠ A) := by
  obtain ⟨a1, e1⟩ := handle_signal_metaOnly_new cfg art t0 A innerA
  rw [e1] at h1
  have hs1 : s1 = HandlerState.mk [(A, metadata_from_map innerA)]
      (some (Notification.mk A (metadata_from_map innerA) a1 t0))
      (build_commands cfg.commands) := (Except.ok.inj h1).symm
  obtain ⟨a2, e2⟩ := handle_signal_metaPlaying cfg art t1 B innerB s1
  rw [e2] at h2
  have hs2 : s2 = HandlerState.mk (cacheInsert s1.metadata B (metadata_from_map innerB))
      (some (Notification.mk B (metadata_from_map innerB) a2 t1))
      (build_commands cfg.commands) := (Except.ok.inj h2).symm
  refine ⟨?_, ⟨a2, by rw [hs2]⟩, ⟨a2, ?_, fun hsend => hAB hsend.symm⟩⟩
  · intro t ht
    rw [hs1]
    unfold handle_pending
    dsimp only
    rw [if_neg (by show ¬ t - t0 > NOTIFICATION_DELAY; unfold NOTIFICATION_DELAY at *; omega)]
  · rw [hs2]
    unfold handle_pending
    dsimp only
    rw [if_pos hdue]

/-- Claim C3 witness: the two-signal scenario at concrete times 0 and
100 with a flush check at 400. -/
theorem C3_witness :
    (∀ t, t ≤ 0 + NOTIFICATION_DELAY →
      (handle_pending cmdCfg (fun _ => true) t C3s1).flushed = none)
    ∧ (∃ aopt, C3s2W.pending_notification
        = some (Notification.mk ":1.2" (metadata_from_map C3innerB) aopt 100))
    ∧ (∃ aopt, (handle_pending cmdCfg (fun _ => true) 400 C3s2W).flushed
        = some (Notification.mk ":1.2" (metadata_from_map C3innerB) aopt 100)
        ∧ (Notification.mk ":1.2" (metadata_from_map C3innerB) aopt 100).sender
            ≠ ":1.1") :=
  C3_playing_from_other_sender_supersedes cmdCfg (fun _ => none) (fun _ => true)
    ":1.1" ":1.2" C3innerA C3innerB 0 100 400 C3s1 C3s2W
    (by decide) rfl rfl (by decide) (by decide)

/-- Claim C3 counterexample: as stated the claim fails when B's
Playing-status signal arrives while no metadata is known for B: after
A's metadata signal arms the pending notification at time 0 and B's
status-only Playing signal is processed at time 100 (before A's window
elapses), the pending notification still belongs to A, and the flush at
time 400 delivers A's notification, not B's. -/
theorem C3_counterexample :
    handle_signal cmdCfg (fun _ => none) 0 HandlerState.new
        (metaOnlySignal ":1.1" C3innerA) = .ok C3s1
    ∧ handle_signal cmdCfg (fun _ => none) 100 C3s1
        (statusOnlySignal ":1.2" "Playing") = .ok C3s1
    ∧ C3s1.pending_notification.map Notification.sender = some ":1.1"
    ∧ (handle_pending cmdCfg (fun _ => true) 400 C3s1).flushed.map Notification.sender
        = some ":1.1" :=
  ⟨rfl, rfl, rfl, rfl⟩

end MprisNotifier
